import Mathlib

/-!
Verification of the TimeLogger Attendance & Roll-Call Engine.

Shallow embedding of the core services:
  * `app/services/shifts.py`              — Shift Window Resolver
  * `app/services/attendance.py`          — Attendance Summarizer
  * `app/services/rollcall_scheduler.py`  — Roll-Call Scheduler / expiry sweep
  * `app/routers/roll_calls.py`           — Roll-Call response classification

Time model: a Python naive `datetime` is represented by an `Int` counting
seconds since 1970-01-01T00:00:00; a Python `date` is an `Int` counting days
since 1970-01-01 (day 0 is a Thursday, whose Python `weekday()` is 3).
A `time` (time-of-day) is an `Int` in `[0, 86400)` counting seconds from
midnight.  Timedelta arithmetic is plain `Int` arithmetic; Python's floor
division `//` and modulo `%` on ints are `Int.fdiv` and `Int.emod`.

A tzinfo zone (`zoneinfo.ZoneInfo`) is modelled as a pair of offset
functions (seconds east of UTC): one keyed by the absolute UTC instant
(used by `astimezone(tz)` on an aware UTC datetime) and one keyed by the
local wall-clock time (used when localizing a naive wall time built by
`datetime.combine(..., tzinfo=tz)` and converting it to UTC).  The tz
database itself is an explicit association list from zone names to rules;
`ZoneInfo(name)` for a name absent from the database raises, which is
modelled by `Except`.
-/

namespace TimeLogger

def secondsPerDay : Int := 86400

/-- Python `datetime.date()` / `date` extraction from a naive datetime:
the calendar-day number containing the instant. -/
def dateOfDatetime (t : Int) : Int := t.fdiv secondsPerDay

/-- Python `date.weekday()`: Monday = 0 … Sunday = 6.
Day 0 (1970-01-01) is a Thursday, weekday 3. -/
def pyWeekday (d : Int) : Int := (d + 3).emod 7

/-- Python truthiness-based `or` on optional strings: `a or b` falls through
to `b` when `a` is `None` or the empty string. -/
def pyOrStr (a : Option String) (b : Option String) : Option String :=
  match a with
  | some s => if s = "" then b else some s
  | none => b

/-- `math.ceil(a / b)` for integers `a` and positive `b`. -/
def ceilDiv (a b : Int) : Int := -((-a).fdiv b)

/-- Offset rules of one tz-database zone, in seconds east of UTC.
`offAtUtc` is the offset in effect at an absolute UTC instant;
`offAtLocal` is the offset zoneinfo applies to a local wall-clock time. -/
structure ZoneRules where
  offAtUtc : Int → Int
  offAtLocal : Int → Int

/-- The tz database: zone names mapped to their rules. -/
def TzDb := List (String × ZoneRules)

/-- `zoneinfo.ZoneInfo(name)`: `none` models the `ZoneInfoNotFoundError`
raised for a name absent from the database. -/
def zoneInfo (db : TzDb) (name : String) : Option ZoneRules :=
  (List.find? (fun p => p.1 = name) db).map (fun p => p.2)

/-- Process-wide settings the resolver reads (`settings.default_timezone`
and the `DEVICE_TIMEZONE` sentinel from `app/constants.py`). -/
structure Config where
  default_timezone : String
  device_timezone : String

/-! ## Data model (`app/models`) -/

/-- `app/models/shift.py` `ShiftTemplate`: weekly recurring rule. -/
structure ShiftTemplate where
  id : Int
  org_id : Int
  day_of_week : Int
  start_time : Int
  end_time : Int
  timezone : Option String

/-- `app/models/shift.py` `ShiftAssignment`: binds a user to a template for
a date range. -/
structure ShiftAssignment where
  id : Int
  shift_id : Int
  user_id : Int
  effective_from : Option Int
  effective_to : Option Int

/-- `app/models/organization.py`: only the fields the resolver reads. -/
structure Organization where
  id : Int
  timezone : Option String

/-- `app/services/shifts.py` `ShiftWindow` dataclass. -/
structure ShiftWindow where
  shift_id : Int
  assignment_id : Int
  org_id : Int
  user_id : Int
  timezone : String
  local_start : Int
  local_end : Int
  start_utc : Int
  end_utc : Int
  deriving DecidableEq, Repr

/-- `ShiftWindow.contains`: membership in the half-open UTC interval. -/
def ShiftWindow.containsTs (w : ShiftWindow) (timestamp : Int) : Bool :=
  w.start_utc ≤ timestamp && timestamp < w.end_utc

/-- The persisted shift records the resolver queries. -/
structure ShiftDb where
  templates : List ShiftTemplate
  assignments : List ShiftAssignment
  organizations : List Organization

/-! ## Shift Window Resolver (`app/services/shifts.py`) -/

/-- `_candidate_dates`: the occurrence of `target_weekday` at or before the
reference date, and its ±7-day neighbours, in generator order. -/
def candidateDates (reference_date : Int) (target_weekday : Int) : List Int :=
  let delta := (pyWeekday reference_date - target_weekday).emod 7
  let candidate := reference_date - delta
  [candidate, candidate - 7, candidate + 7]

/-- The two `continue` guards of `_windows_for_assignments`: a candidate
date is kept unless it falls before `effective_from` or after
`effective_to` (each check skipped when the field is `None`). -/
def inEffectiveRange (a : ShiftAssignment) (candidate : Int) : Bool :=
  !(match a.effective_from with
    | some f => candidate < f
    | none => false) &&
  !(match a.effective_to with
    | some t => candidate > t
    | none => false)

/-- `_build_window`: combine the candidate date with the template's local
start/end times, push the end across midnight for overnight shifts, and
convert both endpoints to UTC with the zone's offset at each wall time. -/
def buildWindow (template : ShiftTemplate) (assignment : ShiftAssignment)
    (tz_value : String) (tz : ZoneRules) (candidate : Int) : ShiftWindow :=
  let start_local := candidate * secondsPerDay + template.start_time
  let end_local0 := candidate * secondsPerDay + template.end_time
  let end_local := if end_local0 ≤ start_local then end_local0 + secondsPerDay else end_local0
  let start_utc := start_local - tz.offAtLocal start_local
  let end_utc := end_local - tz.offAtLocal end_local
  { shift_id := template.id
    assignment_id := assignment.id
    org_id := template.org_id
    user_id := assignment.user_id
    timezone := tz_value
    local_start := start_local
    local_end := end_local
    start_utc := start_utc
    end_utc := end_utc }

/-- Organization time zone lookup (`org_timezones.get(template.org_id)`). -/
def orgTimezone (db : ShiftDb) (org_id : Int) : Option String :=
  (List.find? (fun o => o.id = org_id) db.organizations).bind (fun o => o.timezone)

/-- The resolved zone name for a template, as computed inline in
`_windows_for_assignments`: `template.timezone or org-zone or default`. -/
def tzValueForTemplate (db : ShiftDb) (cfg : Config) (template : ShiftTemplate) : String :=
  match pyOrStr (pyOrStr template.timezone (orgTimezone db template.org_id))
      (some cfg.default_timezone) with
  | some s => s
  | none => cfg.default_timezone

/-- The windows one assignment contributes before outer de-duplication:
the three candidate dates, filtered by the effective range, each built
into a window. -/
def assignmentWindows (template : ShiftTemplate) (assignment : ShiftAssignment)
    (tz_value : String) (tz : ZoneRules) (local_reference_date : Int) : List ShiftWindow :=
  ((candidateDates local_reference_date template.day_of_week).filter
      (fun c => inEffectiveRange assignment c)).map
    (fun c => buildWindow template assignment tz_value tz c)

/-- De-duplication by `(template id, start_utc)` with a `seen` set, in
traversal order. -/
def dedupWindows (seen : List (Int × Int)) : List ShiftWindow → List ShiftWindow
  | [] => []
  | w :: ws =>
      let key := (w.shift_id, w.start_utc)
      if key ∈ seen then dedupWindows seen ws
      else w :: dedupWindows (key :: seen) ws

/-- `_windows_for_assignments`: for each of the user's assignments, resolve
the zone (raising for an unknown zone name), localize the reference
instant, and emit the (de-duplicated) candidate windows. -/
def windowsForAssignments (tzdb : TzDb) (db : ShiftDb) (cfg : Config)
    (user_id : Int) (reference : Int) : Except String (List ShiftWindow) := do
  let assignments := db.assignments.filter (fun a => a.user_id = user_id)
  let raw ← assignments.foldlM (fun (acc : List ShiftWindow) a => do
    match List.find? (fun t => t.id = a.shift_id) db.templates with
    | none => pure acc
    | some template =>
        let tz_value := tzValueForTemplate db cfg template
        match zoneInfo tzdb tz_value with
        | none => throw ("No time zone found with key " ++ tz_value)
        | some tz =>
            let local_reference := reference + tz.offAtUtc reference
            let local_reference_date := dateOfDatetime local_reference
            pure (acc ++ assignmentWindows template a tz_value tz local_reference_date))
    []
  pure (dedupWindows [] raw)

/-- `get_active_shift_window`: the first resolved window containing the
reference instant. -/
def getActiveShiftWindow (tzdb : TzDb) (db : ShiftDb) (cfg : Config)
    (user_id : Int) (reference : Int) : Except String (Option ShiftWindow) := do
  let windows ← windowsForAssignments tzdb db cfg user_id reference
  pure (windows.find? (fun w => w.containsTs reference))

/-- `_resolve_timezone`: user zone (unless it is the device sentinel),
else organization zone, else the global default. -/
def resolveTimezone (cfg : Config) (user_tz : Option String) (org_tz : Option String) : String :=
  match user_tz with
  | some s =>
      if s ≠ "" ∧ s ≠ cfg.device_timezone then s
      else match org_tz with
        | some o => if o = "" then cfg.default_timezone else o
        | none => cfg.default_timezone
  | none =>
      match org_tz with
      | some o => if o = "" then cfg.default_timezone else o
      | none => cfg.default_timezone

/-! ## Attendance data model (`app/models`) -/

/-- `work_sessions.session_type` enum values the summarizer buckets. -/
inductive SessionType
  | WORK
  | LUNCH
  | SHORT_BREAK
  deriving DecidableEq, Repr

/-- `app/models/work_session.py` `WorkSession` (fields the core reads). -/
structure WorkSession where
  id : Int
  org_id : Int
  user_id : Int
  session_type : SessionType
  started_at : Int
  ended_at : Option Int
  deriving DecidableEq, Repr

/-- `deduction_type` enum. -/
inductive DeductionType
  | OVERBREAK
  | ROLLCALL
  deriving DecidableEq, Repr

/-- `app/models/deduction.py` `Deduction` row (fields the core reads or
writes; the surrogate primary key is not consulted by the engine). -/
structure Deduction where
  org_id : Option Int
  user_id : Int
  date : Int
  type : DeductionType
  minutes : Int
  description : String
  related_roll_call_id : Option Int := none
  deriving DecidableEq, Repr

/-- `rollcall_result` enum. -/
inductive RollCallResult
  | PENDING
  | PASSED
  | LATE
  | MISSED
  deriving DecidableEq, Repr

/-- `app/models/roll_call.py` `RollCall` row.  `id := 0` stands for a
database-assigned key on freshly inserted rows. -/
structure RollCall where
  id : Int
  org_id : Int
  user_id : Int
  triggered_at : Int
  deadline_at : Int
  responded_at : Option Int := none
  result : RollCallResult
  response_delay_seconds : Option Int := none
  deriving DecidableEq, Repr

/-! ## Attendance Summarizer (`app/services/attendance.py`) -/

def ALLOWED_LUNCH_MINUTES : Int := 60
def ALLOWED_SHORT_BREAK_MINUTES : Int := 30

/-- `app/schemas/session.py` `SessionSummary` (the float `net_hours` is
modelled by an exact rational). -/
structure SessionSummary where
  work_minutes : Int := 0
  lunch_minutes : Int := 0
  short_break_minutes : Int := 0
  overbreak_minutes : Int := 0
  rollcall_deduction_minutes : Int := 0
  net_hours : ℚ := 0
  deriving DecidableEq, Repr

/-- `_minutes_in_windows`: whole minutes of overlap between the session
interval (open sessions end at `now = datetime.utcnow()`) and the day's
shift windows. -/
def minutesInWindows (start : Int) (ended : Option Int) (now : Int)
    (windows : List ShiftWindow) : Int :=
  if windows = [] then 0
  else
    let effective_end := ended.getD now
    windows.foldl (fun total w =>
      let overlap_start := max start w.start_utc
      let overlap_end := min effective_end w.end_utc
      if overlap_end ≤ overlap_start then total
      else total + max 0 ((overlap_end - overlap_start).fdiv 60)) 0

/-- The row filter of the summarizer's `Deduction` query for a kind. -/
def isDeductionRow (user_id target_date : Int) (kind : DeductionType) (d : Deduction) : Bool :=
  d.user_id = user_id && d.date = target_date && d.type = kind

/-- The session query of `build_summary_for_day`: rows owned by the user
whose `started_at` has the year/month/day of `target_date` (equivalently,
whose naive calendar date is `target_date`). -/
def sessionsOfDay (sessions : List WorkSession) (user_id target_date : Int) : List WorkSession :=
  sessions.filter (fun s => s.user_id = user_id && dateOfDatetime s.started_at = target_date)

/-- The bucketing loop of `build_summary_for_day`: per-kind minute totals
over the day's sessions, clipped to the shift windows. -/
def bucketMinutes (daySessions : List WorkSession) (windows : List ShiftWindow)
    (now : Int) : Int × Int × Int :=
  daySessions.foldl (fun (acc : Int × Int × Int) s =>
    let minutes := minutesInWindows s.started_at s.ended_at now windows
    if minutes ≤ 0 then acc
    else match s.session_type with
      | .WORK => (acc.1 + minutes, acc.2.1, acc.2.2)
      | .LUNCH => (acc.1, acc.2.1 + minutes, acc.2.2)
      | .SHORT_BREAK => (acc.1, acc.2.1, acc.2.2 + minutes)) (0, 0, 0)

/-- `one_or_none()` of a SQLAlchemy query over the listed rows: `none`
models the `MultipleResultsFound` error raised for two or more rows. -/
def oneOrNone {α : Type} (l : List α) : Option (Option α) :=
  match l with
  | [] => some none
  | [x] => some (some x)
  | _ => none

/-- The description string of the reconciled OVERBREAK row (the f-string
of `_sync_overbreak_deduction`; an empty id list is falsy). -/
def syncDescription (session_ids : List Int) : String :=
  if session_ids ≠ [] then "Overbreak accrued from sessions " ++ toString session_ids
  else "Overbreak accrued"

/-- The in-place overwrite of the existing OVERBREAK row
(`existing.minutes = minutes; existing.description = description`),
expressed as a per-row function: it touches exactly the rows matched by
the query filter. -/
def updOverbreak (user_id target_date minutes : Int) (session_ids : List Int)
    (d : Deduction) : Deduction :=
  if isDeductionRow user_id target_date .OVERBREAK d then
    { d with minutes := minutes, description := syncDescription session_ids }
  else d

/-- `_sync_overbreak_deduction`: delete the (unique) OVERBREAK row of the
day when no overbreak remains, otherwise create it or overwrite its
minutes and description.  Returns `none` when `one_or_none` raises. -/
def syncOverbreakDeduction (deductions : List Deduction) (user_id : Int)
    (org_id : Option Int) (target_date : Int) (minutes : Int)
    (session_ids : List Int) : Option (List Deduction) :=
  match oneOrNone (deductions.filter (isDeductionRow user_id target_date .OVERBREAK)) with
  | none => none
  | some existing =>
      if minutes ≤ 0 then
        match existing with
        | some _ =>
            some (deductions.filter
              (fun d => !(isDeductionRow user_id target_date .OVERBREAK d)))
        | none => some deductions
      else
        match existing with
        | some _ =>
            some (deductions.map (updOverbreak user_id target_date minutes session_ids))
        | none =>
            some (deductions ++ [{ org_id := org_id, user_id := user_id, date := target_date,
                                   type := .OVERBREAK, minutes := minutes,
                                   description := syncDescription session_ids }])

/-- The overbreak minutes the summarizer computes for a day (the
`over_lunch + over_short` value of `build_summary_for_day`). -/
def overbreakMinutesOf (sessions : List WorkSession) (windows : List ShiftWindow)
    (user_id target_date now : Int) : Int :=
  max 0 ((bucketMinutes (sessionsOfDay sessions user_id target_date) windows now).2.1 -
      ALLOWED_LUNCH_MINUTES) +
  max 0 ((bucketMinutes (sessionsOfDay sessions user_id target_date) windows now).2.2 -
      ALLOWED_SHORT_BREAK_MINUTES)

/-- `build_summary_for_day`.  `windows` stands for the value of
`shift_service.get_shift_windows_for_day(db, user_id, target_date)` — a
pure function of the persisted shift records, embedded separately above —
and `now` for `datetime.utcnow()`.  The second component is the deduction
table after the optional overbreak reconciliation (`none` models the
`MultipleResultsFound` error). -/
def buildSummaryForDay (sessions : List WorkSession) (deductions : List Deduction)
    (windows : List ShiftWindow) (user_id target_date now : Int)
    (sync_deductions : Bool) : SessionSummary × Option (List Deduction) :=
  let daySessions := sessionsOfDay sessions user_id target_date
  let session_ids := daySessions.map (fun s => s.id)
  let org_id := (daySessions.head?).map (fun s => s.org_id)
  let buckets := bucketMinutes daySessions windows now
  let work_minutes := buckets.1
  let lunch_minutes := buckets.2.1
  let short_break_minutes := buckets.2.2
  let over_lunch := max 0 (lunch_minutes - ALLOWED_LUNCH_MINUTES)
  let over_short := max 0 (short_break_minutes - ALLOWED_SHORT_BREAK_MINUTES)
  let overbreak_minutes := over_lunch + over_short
  let rollcall_minutes :=
    ((deductions.filter (isDeductionRow user_id target_date .ROLLCALL)).map
      (fun d => d.minutes)).sum
  let raw_hours : ℚ := (work_minutes : ℚ) / 60
  let deduction_hours : ℚ := ((overbreak_minutes : ℚ) + (rollcall_minutes : ℚ)) / 60
  let summary : SessionSummary :=
    { work_minutes := work_minutes
      lunch_minutes := lunch_minutes
      short_break_minutes := short_break_minutes
      overbreak_minutes := overbreak_minutes
      rollcall_deduction_minutes := rollcall_minutes
      net_hours := max 0 (min 8 raw_hours - deduction_hours) }
  (summary,
   if sync_deductions then
     syncOverbreakDeduction deductions user_id org_id target_date overbreak_minutes session_ids
   else some deductions)

/-- Python's `round` rounds ties to the nearest even integer. -/
def roundHalfEven (x : ℚ) : Int :=
  let f := ⌊x⌋
  let r := x - f
  if r < 1/2 then f
  else if 1/2 < r then f + 1
  else if f % 2 = 0 then f else f + 1

/-- `round(value, 2)` on the exact rational value. -/
def pyRound2 (x : ℚ) : ℚ := (roundHalfEven (x * 100) : ℚ) / 100

/-- `build_summary_for_range`: normalize the two dates, sum the read-only
daily summaries over every day of the window, and round the aggregate net
hours for display.  `windowsFor` stands for
`shift_service.get_shift_windows_for_day` applied to each day. -/
def buildSummaryForRange (sessions : List WorkSession) (deductions : List Deduction)
    (windowsFor : Int → List ShiftWindow) (user_id : Int) (now : Int)
    (start_date end_date : Int) : SessionSummary :=
  let window_start := min start_date end_date
  let window_end := max start_date end_date
  let aggregate :=
    (List.range ((window_end - window_start).toNat + 1)).foldl
      (fun (acc : SessionSummary) i =>
        let current := window_start + (i : Int)
        let daily := (buildSummaryForDay sessions deductions (windowsFor current)
          user_id current now false).1
        { work_minutes := acc.work_minutes + daily.work_minutes
          lunch_minutes := acc.lunch_minutes + daily.lunch_minutes
          short_break_minutes := acc.short_break_minutes + daily.short_break_minutes
          overbreak_minutes := acc.overbreak_minutes + daily.overbreak_minutes
          rollcall_deduction_minutes :=
            acc.rollcall_deduction_minutes + daily.rollcall_deduction_minutes
          net_hours := acc.net_hours + daily.net_hours }) {}
  { aggregate with net_hours := pyRound2 aggregate.net_hours }

/-- `create_rollcall_deduction`: append one ROLLCALL deduction of
`ceil(delay_seconds / 60)` minutes dated by the triggering instant. -/
def createRollcallDeduction (deductions : List Deduction) (org_id user_id : Int)
    (occurred_at delay_seconds roll_call_id : Int) : List Deduction :=
  deductions ++ [{ org_id := some org_id, user_id := user_id,
                   date := dateOfDatetime occurred_at, type := .ROLLCALL,
                   minutes := ceilDiv delay_seconds 60,
                   description := "Roll-call late response",
                   related_roll_call_id := some roll_call_id }]

/-! ## Roll-call response classification (`app/routers/roll_calls.py`) -/

/-- Outcome of `respond_roll_call`: the 400 "invalid" response, or the
terminal result reported back to the user. -/
inductive RespondStatus
  | invalid
  | responded (result : RollCallResult)
  deriving DecidableEq, Repr

/-- State touched by the response endpoint. -/
structure RollCallState where
  roll_calls : List RollCall
  deductions : List Deduction
  deriving DecidableEq, Repr

/-- `respond_roll_call`: look up the roll-call by id and responding user;
reject unless it is still PENDING; classify by the delay since the
trigger — at most 300 s is PASSED, anything beyond is LATE (whether the
response arrives before or after the formal deadline) with the excess
recorded and a ROLLCALL deduction created.  `none` models the
`MultipleResultsFound` error of `one_or_none`. -/
def respondRollCall (st : RollCallState) (user_id roll_call_id now : Int) :
    Option (RespondStatus × RollCallState) :=
  let isTarget := fun (rc : RollCall) => rc.id = roll_call_id && rc.user_id = user_id
  match oneOrNone (st.roll_calls.filter isTarget) with
  | none => none
  | some none => some (.invalid, st)
  | some (some rc) =>
      if rc.result ≠ .PENDING then some (.invalid, st)
      else
        let delay_seconds := now - rc.triggered_at
        if delay_seconds ≤ 300 then
          let rc' := { rc with responded_at := some now, result := .PASSED }
          some (.responded .PASSED,
            { st with roll_calls := st.roll_calls.map (fun x => if isTarget x then rc' else x) })
        else if now ≤ rc.deadline_at then
          let rc' := { rc with responded_at := some now, result := .LATE,
                               response_delay_seconds := some (delay_seconds - 300) }
          some (.responded .LATE,
            { roll_calls := st.roll_calls.map (fun x => if isTarget x then rc' else x)
              deductions := createRollcallDeduction st.deductions rc.org_id user_id
                rc.triggered_at (delay_seconds - 300) rc.id })
        else
          let rc' := { rc with responded_at := some now, result := .LATE,
                               response_delay_seconds := some (delay_seconds - 300) }
          some (.responded .LATE,
            { roll_calls := st.roll_calls.map (fun x => if isTarget x then rc' else x)
              deductions := createRollcallDeduction st.deductions rc.org_id user_id
                rc.triggered_at (delay_seconds - 300) rc.id })

/-! ## Roll-Call Scheduler (`app/services/rollcall_scheduler.py`) -/

def RESPONSE_WINDOW_MINUTES : Int := 5
def MIN_GAP_MINUTES : Int := 5
def MAX_GAP_MINUTES : Int := 16
def MIN_ROLLCALLS_PER_HOUR : Int := 1
def DEFAULT_ROLLCALLS_PER_HOUR : Int := 5
def MAX_ROLLCALLS_PER_HOUR : Int := max MIN_ROLLCALLS_PER_HOUR (Int.fdiv 60 MIN_GAP_MINUTES)

/-- Caller-supplied `rollcalls_per_hour` before clamping: absent (`None`),
an integer, or a value `int()` cannot parse (the `TypeError`/`ValueError`
branch). -/
inductive RawTarget
  | absent
  | num (n : Int)
  | junk
  deriving DecidableEq, Repr

/-- `clamp_rollcall_target`. -/
def clampRollcallTarget : RawTarget → Int
  | .absent => DEFAULT_ROLLCALLS_PER_HOUR
  | .junk => DEFAULT_ROLLCALLS_PER_HOUR
  | .num n => max MIN_ROLLCALLS_PER_HOUR (min MAX_ROLLCALLS_PER_HOUR n)

/-- `random.randint(a, b)` draws uniformly from `[a, b]`; the draw is
modelled by reducing an arbitrary oracle value into that range (any
in-range value is reachable), which is all the scheduled-invariant proofs
rely on.  Requires `a ≤ b`, as `randint` does. -/
def randintModel (a b : Int) (oracle : Int) : Int := a + (oracle - a).emod (b - a + 1)

/-- `random.choice(l)` on a non-empty list, the picked index supplied by
the oracle. -/
def chooseFrom (l : List Int) (oracle : Int) (h : l ≠ []) : Int :=
  l.get ⟨oracle.natAbs % l.length, Nat.mod_lt _ (List.length_pos.mpr h)⟩

/-- `_already_has_rollcall`. -/
def alreadyHasRollcall (roll_calls : List RollCall) (user_id : Int) : Bool :=
  roll_calls.any (fun rc => rc.user_id = user_id)

theorem chooseFrom_mem (l : List Int) (oracle : Int) (h : l ≠ []) :
    chooseFrom l oracle h ∈ l :=
  List.get_mem _ _ _

theorem length_erase_chooseFrom (l : List Int) (oracle : Int) (h : l ≠ []) :
    (l.erase (chooseFrom l oracle h)).length = l.length - 1 := by
  rw [List.length_erase_of_mem (chooseFrom_mem l oracle h)]

/-- The `while` loop of `schedule_roll_calls_for_current_hour`.  The
varying state is the eligible-user pool, the accumulated new roll-calls,
the anchor, the first-of-the-hour flag and the oracle cursor `k` (each
`randint`/`choice` call consumes one oracle value in order).  The source
computes `target_time` first and then runs one shared body; here that body
appears once for the first-of-the-hour slot (`target_time = anchor`) and
once for the gap-offset slot (`target_time = anchor + gap`), with the same
checks in the same order. -/
def scheduleLoop (org_id latest_allowed min_gap max_gap response_window target : Int)
    (existing : List RollCall) (rng : Nat → Int)
    (active_users : List Int) (scheduled : List RollCall) (anchor : Int)
    (first_new : Bool) (k : Nat) : List RollCall :=
  if hloop : (existing.length : Int) + scheduled.length < target ∧ active_users ≠ [] then
    if first_new = true then
      if anchor > latest_allowed then scheduled
      else if alreadyHasRollcall (existing ++ scheduled)
          (chooseFrom active_users (rng k) hloop.2) = true then
        scheduleLoop org_id latest_allowed min_gap max_gap response_window target
          existing rng (active_users.erase (chooseFrom active_users (rng k) hloop.2))
          scheduled anchor false (k + 1)
      else
        scheduleLoop org_id latest_allowed min_gap max_gap response_window target
          existing rng active_users
          (scheduled ++ [⟨0, org_id, chooseFrom active_users (rng k) hloop.2, anchor,
            anchor + response_window, none, .PENDING, none⟩]) anchor false (k + 1)
    else
      if latest_allowed - anchor ≤ min_gap then scheduled
      else if anchor + randintModel min_gap (min max_gap (latest_allowed - anchor)) (rng k) >
          latest_allowed then scheduled
      else if alreadyHasRollcall (existing ++ scheduled)
          (chooseFrom active_users (rng (k + 1)) hloop.2) = true then
        scheduleLoop org_id latest_allowed min_gap max_gap response_window target
          existing rng (active_users.erase (chooseFrom active_users (rng (k + 1)) hloop.2))
          scheduled anchor false (k + 2)
      else
        scheduleLoop org_id latest_allowed min_gap max_gap response_window target
          existing rng active_users
          (scheduled ++ [⟨0, org_id, chooseFrom active_users (rng (k + 1)) hloop.2,
            anchor + randintModel min_gap (min max_gap (latest_allowed - anchor)) (rng k),
            anchor + randintModel min_gap (min max_gap (latest_allowed - anchor)) (rng k) +
              response_window, none, .PENDING, none⟩])
          (anchor + randintModel min_gap (min max_gap (latest_allowed - anchor)) (rng k))
          false (k + 2)
  else scheduled
termination_by (target - ((existing.length : Int) + scheduled.length)).toNat + active_users.length
decreasing_by
  · have hpos : 0 < active_users.length := List.length_pos.mpr hloop.2
    simp only [length_erase_chooseFrom]
    omega
  · simp only [List.length_append, List.length_cons, List.length_nil]
    omega
  · have hpos : 0 < active_users.length := List.length_pos.mpr hloop.2
    simp only [length_erase_chooseFrom]
    omega
  · simp only [List.length_append, List.length_cons, List.length_nil]
    omega

/-- Ascending stable insertion by `triggered_at` (the `ORDER BY
triggered_at ASC` of the existing-roll-calls query). -/
def insertByTrigger (rc : RollCall) : List RollCall → List RollCall
  | [] => [rc]
  | x :: xs => if rc.triggered_at ≤ x.triggered_at then rc :: x :: xs
               else x :: insertByTrigger rc xs

def sortByTrigger : List RollCall → List RollCall
  | [] => []
  | x :: xs => insertByTrigger x (sortByTrigger xs)

/-- The existing-roll-call query of the scheduler: rows of the org
triggered inside the hour bucket, ascending by trigger time. -/
def existingInHour (roll_calls : List RollCall) (org_id start_of_hour end_of_hour : Int) :
    List RollCall :=
  sortByTrigger (roll_calls.filter (fun rc =>
    rc.org_id = org_id && start_of_hour ≤ rc.triggered_at && rc.triggered_at < end_of_hour))

/-- `schedule_roll_calls_for_current_hour`.  `roll_calls` is the persisted
roll-call table; `active_users` stands for the user ids returned by
`_get_active_users(db, org_id, now)` (a read-only query plus the resolver,
embedded separately); `rng` is the randomness oracle.  Returns the newly
created PENDING roll-calls. -/
def scheduleRollCallsForCurrentHour (roll_calls : List RollCall) (active_users : List Int)
    (org_id now : Int) (raw_target : RawTarget) (rng : Nat → Int)
    (min_gap_minutes max_gap_minutes : Int) : List RollCall :=
  let target_count := clampRollcallTarget raw_target
  let start_of_hour := (now.fdiv 3600) * 3600
  let end_of_hour := start_of_hour + 3600
  let latest_allowed_start := end_of_hour - RESPONSE_WINDOW_MINUTES * 60
  let existing := existingInHour roll_calls org_id start_of_hour end_of_hour
  if (existing.length : Int) ≥ target_count then []
  else if active_users = [] then []
  else
    let last_triggered_at := (existing.getLast?).map (fun rc => rc.triggered_at)
    let anchor := max (last_triggered_at.getD now) now
    let first_new_roll_call := last_triggered_at = none
    scheduleLoop org_id latest_allowed_start (min_gap_minutes * 60) (max_gap_minutes * 60)
      (RESPONSE_WINDOW_MINUTES * 60) target_count existing rng active_users [] anchor
      first_new_roll_call 0

/-- Trigger instants of a roll-call list, in list order. -/
def trigs (l : List RollCall) : List Int := l.map (fun rc => rc.triggered_at)

/-- Number of roll-calls of one user in a list. -/
def countUserRC (l : List RollCall) (u : Int) : Nat :=
  (l.filter (fun rc => rc.user_id = u)).length

/-- All consecutive gaps of a trigger list lie in `[minG, maxG]`. -/
def gapChain (minG maxG : Int) : List Int → Prop
  | [] => True
  | [_] => True
  | t₁ :: t₂ :: ts => minG ≤ t₂ - t₁ ∧ t₂ - t₁ ≤ maxG ∧ gapChain minG maxG (t₂ :: ts)

/-- The per-record transition of the expiry sweep: a PENDING record whose
deadline has passed becomes MISSED, everything else is untouched. -/
def expireStep (now : Int) (rc : RollCall) : RollCall :=
  if rc.result = .PENDING && rc.deadline_at < now then { rc with result := .MISSED } else rc

/-- `expire_roll_calls`: flip every PENDING roll-call whose deadline has
passed to MISSED and report how many were flipped. -/
def expireRollCalls (roll_calls : List RollCall) (now : Int) : List RollCall × Nat :=
  (roll_calls.map (expireStep now),
   (roll_calls.filter (fun rc => rc.result = .PENDING && rc.deadline_at < now)).length)

/-! ## Concrete instances used by counterexamples and witnesses -/

/-- A fixed-offset UTC zone. -/
def zoneUTC : ZoneRules := ⟨fun _ => 0, fun _ => 0⟩

def tzdbEx : TzDb := [("UTC", zoneUTC)]

def cfgEx : Config := ⟨"UTC", "device"⟩

/-- Template on weekday 3 (day 0, 1970-01-01, is a Thursday), 01:00–02:00 UTC. -/
def tmplEx : ShiftTemplate := ⟨1, 1, 3, 3600, 7200, some "UTC"⟩

/-- Assignment whose `effective_to` is day 0 itself. -/
def asgnEx : ShiftAssignment := ⟨1, 1, 7, some (-7), some 0⟩

def shiftDbEx : ShiftDb := ⟨[tmplEx], [asgnEx], []⟩

/-- The same template pointing at a zone name absent from the database. -/
def tmplUnknownTz : ShiftTemplate := { tmplEx with timezone := some "Mars/Olympus" }

def shiftDbUnknownTz : ShiftDb := ⟨[tmplUnknownTz], [asgnEx], []⟩

/-- America/New_York around the 2024 spring-forward: UTC−5 before the
transition (02:00 local wall time on 2024-03-10, day 19792), UTC−4 after. -/
def zoneNewYork : ZoneRules :=
  ⟨fun t => if t < 19792 * 86400 + 7200 + 18000 then -18000 else -14400,
   fun t => if t < 19792 * 86400 + 7200 then -18000 else -14400⟩

/-- Sunday shift 00:00–08:00 local, crossing the 2024 spring-forward. -/
def tmplNY : ShiftTemplate := ⟨2, 1, 6, 0, 28800, some "America/New_York"⟩

def asgnNY : ShiftAssignment := ⟨2, 2, 7, some 0, none⟩

/-- An all-day UTC window on day 0 for user 7. -/
def windowAllDay : ShiftWindow :=
  ⟨1, 1, 1, 7, "UTC", 0, 86400, 0, 86400⟩

/-- 450 min WORK, 70 min LUNCH, 40 min SHORT_BREAK inside the window. -/
def sessionsEx : List WorkSession :=
  [⟨1, 1, 7, .WORK, 32400, some 59400⟩,
   ⟨2, 1, 7, .LUNCH, 60000, some 64200⟩,
   ⟨3, 1, 7, .SHORT_BREAK, 65000, some 67400⟩]

/-- One 3-minute ROLLCALL deduction on day 0 for user 7. -/
def rollDedEx : Deduction :=
  { org_id := some 1, user_id := 7, date := 0, type := .ROLLCALL, minutes := 3,
    description := "Roll-call late response" }

/-- A PENDING roll-call triggered at instant 0, deadline 300 s later. -/
def rcPendEx : RollCall := ⟨5, 1, 7, 0, 300, none, .PENDING, none⟩

def stEx : RollCallState := ⟨[rcPendEx], []⟩

/-- An already-expirable PENDING roll-call and a PASSED one. -/
def rcPendPastEx : RollCall := ⟨6, 1, 8, 0, 100, none, .PENDING, none⟩

def rcPassedEx : RollCall := ⟨7, 1, 9, 0, 300, some 10, .PASSED, none⟩

/-- Existing roll-calls of org 1 inside the hour bucket `[0, 3600)`. -/
def rcBucketEx (i uid t : Int) : RollCall := ⟨i, 1, uid, t, t + 300, none, .PENDING, none⟩

/-! ## C1 — roll-call response classification -/

/-- C1: a response to a PENDING roll-call of the responding user is
classified from `delaySeconds = responded_at − triggered_at`: at most
300 s is PASSED with no deduction; beyond 300 s — before or after the
formal deadline — is LATE, `response_delay_seconds` is the excess, and
exactly one ROLLCALL deduction of `ceil(excess / 60)` minutes is
appended. -/
theorem rollcall_response_classification
    (st : RollCallState) (uid rid now : Int) (rc : RollCall)
    (hfind : st.roll_calls.filter (fun x => x.id = rid && x.user_id = uid) = [rc])
    (hpend : rc.result = .PENDING) :
    (now - rc.triggered_at ≤ 300 →
      respondRollCall st uid rid now =
        some (.responded .PASSED,
          { roll_calls := st.roll_calls.map (fun x =>
              if x.id = rid && x.user_id = uid then
                { rc with responded_at := some now, result := .PASSED } else x)
            deductions := st.deductions })) ∧
    (300 < now - rc.triggered_at →
      respondRollCall st uid rid now =
        some (.responded .LATE,
          { roll_calls := st.roll_calls.map (fun x =>
              if x.id = rid && x.user_id = uid then
                { rc with responded_at := some now, result := .LATE,
                          response_delay_seconds := some (now - rc.triggered_at - 300) }
              else x)
            deductions := st.deductions ++
              [{ org_id := some rc.org_id, user_id := uid,
                 date := dateOfDatetime rc.triggered_at, type := .ROLLCALL,
                 minutes := ceilDiv (now - rc.triggered_at - 300) 60,
                 description := "Roll-call late response",
                 related_roll_call_id := some rc.id }] })) := by
  constructor
  · intro hdelay
    simp only [respondRollCall, hfind, oneOrNone, hpend]
    simp [hdelay]
  · intro hdelay
    simp only [respondRollCall, hfind, oneOrNone, hpend]
    by_cases hdl : now ≤ rc.deadline_at <;>
      simp [hdelay, hdl, createRollcallDeduction, not_le.mpr hdelay]

/-- Witness for C1 at the 300 s and 301 s boundary delays. -/
theorem rollcall_response_classification_witness :
    stEx.roll_calls.filter (fun x => x.id = 5 && x.user_id = 7) = [rcPendEx] ∧
    rcPendEx.result = .PENDING ∧
    respondRollCall stEx 7 5 300 =
      some (.responded .PASSED, ⟨[⟨5, 1, 7, 0, 300, some 300, .PASSED, none⟩], []⟩) ∧
    respondRollCall stEx 7 5 301 =
      some (.responded .LATE,
        ⟨[⟨5, 1, 7, 0, 300, some 301, .LATE, some 1⟩],
         [{ org_id := some 1, user_id := 7, date := 0, type := .ROLLCALL, minutes := 1,
            description := "Roll-call late response", related_roll_call_id := some 5 }]⟩) := by
  have h300 := rollcall_response_classification stEx 7 5 300 rcPendEx (by decide) (by decide)
  have h301 := rollcall_response_classification stEx 7 5 301 rcPendEx (by decide) (by decide)
  refine ⟨by decide, by decide, ?_, ?_⟩
  · exact (h300.1 (by decide)).trans (by decide)
  · exact (h301.2 (by decide)).trans (by decide)

/-! ## C2 — daily summarizer formulas -/

/-- C2: the daily summarizer computes
`overbreakMinutes = max(0, lunch − 60) + max(0, break − 30)` and
`netHours = max(0, min(8, work/60) − (overbreak + rollcall)/60)`;
in the 450/70/40-minute scenario with one 3-minute ROLLCALL deduction
this yields overbreak 20 and net hours `7.5 − 23/60 = 427/60`. -/
theorem daily_summary_overbreak_and_net_hours :
    (∀ (sessions : List WorkSession) (deductions : List Deduction)
        (windows : List ShiftWindow) (uid d now : Int) (sync : Bool),
      let s := (buildSummaryForDay sessions deductions windows uid d now sync).1
      s.overbreak_minutes =
          max 0 (s.lunch_minutes - ALLOWED_LUNCH_MINUTES) +
            max 0 (s.short_break_minutes - ALLOWED_SHORT_BREAK_MINUTES) ∧
        s.net_hours = max 0 (min 8 ((s.work_minutes : ℚ) / 60) -
          ((s.overbreak_minutes : ℚ) + (s.rollcall_deduction_minutes : ℚ)) / 60)) ∧
    (buildSummaryForDay sessionsEx [rollDedEx] [windowAllDay] 7 0 86400 true).1 =
      { work_minutes := 450, lunch_minutes := 70, short_break_minutes := 40,
        overbreak_minutes := 20, rollcall_deduction_minutes := 3, net_hours := 427/60 } := by
  constructor
  · intro sessions deductions windows uid d now sync
    exact ⟨rfl, rfl⟩
  · have h : (buildSummaryForDay sessionsEx [rollDedEx] [windowAllDay] 7 0 86400 true).1 =
        { work_minutes := 450, lunch_minutes := 70, short_break_minutes := 40,
          overbreak_minutes := 20, rollcall_deduction_minutes := 3,
          net_hours := max 0 (min 8 ((450 : ℚ) / 60) - ((20 : ℚ) + (3 : ℚ)) / 60) } := by
      rfl
    rw [h]
    congr 1
    norm_num

/-! ## C9 — expiry sweep -/

theorem expireStep_of_pending_past (now : Int) (rc : RollCall)
    (hpend : rc.result = .PENDING) (hpast : rc.deadline_at < now) :
    expireStep now rc = { rc with result := .MISSED } := by
  simp [expireStep, hpend, hpast]

theorem expireStep_of_terminal (now : Int) (rc : RollCall)
    (hterm : rc.result ≠ .PENDING) : expireStep now rc = rc := by
  simp [expireStep, hterm]

theorem expireStep_not_pending_past (now : Int) (rc : RollCall) :
    ((expireStep now rc).result = .PENDING && (expireStep now rc).deadline_at < now) = false := by
  by_cases h : (rc.result = RollCallResult.PENDING && rc.deadline_at < now) = true
  · have h1 : expireStep now rc = { rc with result := .MISSED } := by
      simp only [expireStep, if_pos h]
    rw [h1]
    simp
  · have h1 : expireStep now rc = rc := by
      simp only [expireStep, if_neg h]
    rw [h1]
    simpa using h

theorem expireStep_idem (now : Int) (rc : RollCall) :
    expireStep now (expireStep now rc) = expireStep now rc := by
  by_cases h : (rc.result = RollCallResult.PENDING && rc.deadline_at < now) = true
  · have h1 : expireStep now rc = { rc with result := .MISSED } := by
      simp only [expireStep, if_pos h]
    rw [h1]
    simp [expireStep]
  · have h1 : expireStep now rc = rc := by
      simp only [expireStep, if_neg h]
    rw [h1, h1]

/-- C9: every PENDING roll-call whose deadline is strictly before `now`
is flipped to MISSED and counted once; terminal records are untouched;
re-running the sweep changes nothing and counts zero. -/
theorem expiry_sweep_exactly_once (roll_calls : List RollCall) (now : Int) :
    (expireRollCalls roll_calls now).2 =
        (roll_calls.filter (fun rc => rc.result = .PENDING && rc.deadline_at < now)).length ∧
    (∀ (i : Nat) (rc : RollCall), roll_calls[i]? = some rc →
      (rc.result = .PENDING → rc.deadline_at < now →
        (expireRollCalls roll_calls now).1[i]? = some { rc with result := .MISSED }) ∧
      (rc.result ≠ .PENDING → (expireRollCalls roll_calls now).1[i]? = some rc)) ∧
    expireRollCalls (expireRollCalls roll_calls now).1 now =
      ((expireRollCalls roll_calls now).1, 0) := by
  refine ⟨rfl, ?_, ?_⟩
  · intro i rc hget
    constructor
    · intro hpend hpast
      simp only [expireRollCalls, List.getElem?_map, hget, Option.map_some']
      rw [expireStep_of_pending_past now rc hpend hpast]
    · intro hterm
      simp only [expireRollCalls, List.getElem?_map, hget, Option.map_some']
      rw [expireStep_of_terminal now rc hterm]
  · simp only [expireRollCalls, List.map_map, Prod.mk.injEq]
    constructor
    · exact List.map_congr_left (fun rc _ => expireStep_idem now rc)
    · have hnil : ((roll_calls.map (expireStep now)).filter
          (fun rc => rc.result = .PENDING && rc.deadline_at < now)) = [] := by
        rw [List.filter_eq_nil_iff]
        intro a ha
        rcases List.mem_map.mp ha with ⟨rc, _, hrc⟩
        rw [← hrc]
        simp [expireStep_not_pending_past now rc]
      rw [hnil]
      rfl

/-- Witness for C9: one expirable PENDING record and one PASSED record. -/
theorem expiry_sweep_exactly_once_witness :
    ([rcPendPastEx, rcPassedEx][0]? = some rcPendPastEx ∧
      rcPendPastEx.result = .PENDING ∧ rcPendPastEx.deadline_at < 200) ∧
    (expireRollCalls [rcPendPastEx, rcPassedEx] 200).1[0]? =
      some { rcPendPastEx with result := .MISSED } ∧
    (expireRollCalls [rcPendPastEx, rcPassedEx] 200).1[1]? = some rcPassedEx := by
  have h := expiry_sweep_exactly_once [rcPendPastEx, rcPassedEx] 200
  refine ⟨⟨by decide, by decide, by decide⟩, ?_, ?_⟩
  · exact ((h.2.1 0 rcPendPastEx (by decide)).1 (by decide) (by decide))
  · exact ((h.2.1 1 rcPassedEx (by decide)).2 (by decide))

/-! ## C10 — range summarizer symmetry -/

/-- C10: the range summarizer normalizes its two date arguments to
`[min, max]` before summing read-only daily summaries, so it is symmetric
in the two dates. -/
theorem range_summary_symmetric (sessions : List WorkSession)
    (deductions : List Deduction) (windowsFor : Int → List ShiftWindow)
    (uid now a b : Int) :
    buildSummaryForRange sessions deductions windowsFor uid now a b =
      buildSummaryForRange sessions deductions windowsFor uid now b a := by
  unfold buildSummaryForRange
  rw [min_comm, max_comm]

/-! ## C3 — assignment effective range -/

/-- C3 counterexample: with `effective_to = some 0`, the candidate date 0
(equal to `effective_to`) still produces a window — the resolver's output
for user 7 at reference instant 0 contains the window starting at
01:00 UTC of day 0 — so the range is not half-open at the top. -/
theorem effective_range_counterexample :
    asgnEx.effective_to = some 0 ∧
    0 ∈ candidateDates 0 tmplEx.day_of_week ∧
    windowsForAssignments tzdbEx shiftDbEx cfgEx 7 0 =
      .ok [⟨1, 1, 1, 7, "UTC", 3600, 7200, 3600, 7200⟩,
           ⟨1, 1, 1, 7, "UTC", -601200, -597600, -601200, -597600⟩] ∧
    dateOfDatetime (3600 : Int) = 0 := by
  refine ⟨rfl, by decide, by rfl, by decide⟩

/-- C3 amended: the resolver discards a candidate date exactly when it is
before `effective_from` or strictly after `effective_to` (absent bounds
never discard) — the effective range is the inclusive `[effective_from,
effective_to]`, and a kept candidate's window is emitted by the
per-assignment generation. -/
theorem effective_range_inclusive :
    (∀ (a : ShiftAssignment) (c : Int),
      inEffectiveRange a c = true ↔
        ((∀ f, a.effective_from = some f → f ≤ c) ∧
         (∀ t, a.effective_to = some t → c ≤ t))) ∧
    (∀ (template : ShiftTemplate) (a : ShiftAssignment) (tzv : String)
        (tz : ZoneRules) (d c : Int),
      c ∈ candidateDates d template.day_of_week →
      inEffectiveRange a c = true →
      buildWindow template a tzv tz c ∈ assignmentWindows template a tzv tz d) := by
  constructor
  · intro a c
    unfold inEffectiveRange
    cases hf : a.effective_from <;> cases ht : a.effective_to <;> simp
  · intro template a tzv tz d c hc hin
    unfold assignmentWindows
    exact List.mem_map_of_mem _ (List.mem_filter.mpr ⟨hc, hin⟩)

/-- Witness for C3 amended, at the candidate equal to `effective_to`. -/
theorem effective_range_inclusive_witness :
    inEffectiveRange asgnEx 0 = true ∧
    ((∀ f, asgnEx.effective_from = some f → f ≤ 0) ∧
     (∀ t, asgnEx.effective_to = some t → (0:Int) ≤ t)) ∧
    (0 ∈ candidateDates 0 tmplEx.day_of_week ∧
     buildWindow tmplEx asgnEx "UTC" zoneUTC 0 ∈
       assignmentWindows tmplEx asgnEx "UTC" zoneUTC 0) := by
  refine ⟨by decide, (effective_range_inclusive.1 asgnEx 0).mp (by decide),
    by decide, effective_range_inclusive.2 tmplEx asgnEx "UTC" zoneUTC 0 0
      (by decide) (by decide)⟩

/-! ## C4 — unknown time zone handling -/

/-- C4 counterexample: a zone identifier absent from the tz database is
not replaced by the default — `ZoneInfo` raises and the error propagates
through `_windows_for_assignments` to `get_active_shift_window`. -/
theorem unknown_timezone_error_counterexample :
    zoneInfo tzdbEx "Mars/Olympus" = none ∧
    tzValueForTemplate shiftDbUnknownTz cfgEx tmplUnknownTz = "Mars/Olympus" ∧
    windowsForAssignments tzdbEx shiftDbUnknownTz cfgEx 7 0 =
      .error "No time zone found with key Mars/Olympus" ∧
    getActiveShiftWindow tzdbEx shiftDbUnknownTz cfgEx 7 0 =
      .error "No time zone found with key Mars/Olympus" := by
  exact ⟨rfl, rfl, rfl, rfl⟩

theorem windowsForAssignments_fold_ok (tzdb : TzDb) (db : ShiftDb) (cfg : Config)
    (reference : Int) (l : List ShiftAssignment) (acc : List ShiftWindow)
    (h : ∀ a ∈ l, ∀ t, List.find? (fun tt => tt.id = a.shift_id) db.templates = some t →
      (zoneInfo tzdb (tzValueForTemplate db cfg t)).isSome = true) :
    ∃ ws, (l.foldlM (fun (acc : List ShiftWindow) a =>
      match List.find? (fun t => t.id = a.shift_id) db.templates with
      | none => pure acc
      | some template =>
          match zoneInfo tzdb (tzValueForTemplate db cfg template) with
          | none => throw ("No time zone found with key " ++ tzValueForTemplate db cfg template)
          | some tz =>
              let local_reference := reference + tz.offAtUtc reference
              pure (acc ++ assignmentWindows template a (tzValueForTemplate db cfg template) tz
                (dateOfDatetime local_reference))) acc : Except String (List ShiftWindow)) =
        .ok ws := by
  induction l generalizing acc with
  | nil => exact ⟨acc, rfl⟩
  | cons a rest ih =>
      have ha := h a (List.mem_cons_self a rest)
      cases hfind : List.find? (fun t => t.id = a.shift_id) db.templates with
      | none =>
          rcases ih acc (fun b hb => h b (List.mem_cons_of_mem a hb)) with ⟨ws, hws⟩
          exact ⟨ws, by simpa [List.foldlM, hfind] using hws⟩
      | some template =>
          cases hz : zoneInfo tzdb (tzValueForTemplate db cfg template) with
          | none => exact absurd (ha template hfind) (by simp [hz])
          | some tz =>
              rcases ih (acc ++ assignmentWindows template a (tzValueForTemplate db cfg template)
                  tz (dateOfDatetime (reference + tz.offAtUtc reference)))
                (fun b hb => h b (List.mem_cons_of_mem a hb)) with ⟨ws, hws⟩
              exact ⟨ws, by simpa [List.foldlM, hfind, hz] using hws⟩

/-- C4 amended: a missing zone name (absent or empty template and
organization zones) resolves to the global default, and the resolver
returns windows (no error) whenever every assignment's resolved zone name
is present in the tz database; but an identifier absent from the database
raises, and the error propagates to callers (see the counterexample). -/
theorem missing_timezone_falls_back :
    (∀ (db : ShiftDb) (cfg : Config) (t : ShiftTemplate),
      pyOrStr t.timezone (orgTimezone db t.org_id) = none →
      tzValueForTemplate db cfg t = cfg.default_timezone) ∧
    (∀ (tzdb : TzDb) (db : ShiftDb) (cfg : Config) (uid reference : Int),
      (∀ a ∈ db.assignments.filter (fun a => a.user_id = uid),
        ∀ t, List.find? (fun tt => tt.id = a.shift_id) db.templates = some t →
          (zoneInfo tzdb (tzValueForTemplate db cfg t)).isSome = true) →
      ∃ ws, windowsForAssignments tzdb db cfg uid reference = .ok ws) := by
  constructor
  · intro db cfg t hnone
    unfold tzValueForTemplate
    rw [hnone]
    rfl
  · intro tzdb db cfg uid reference h
    rcases windowsForAssignments_fold_ok tzdb db cfg reference
        (db.assignments.filter (fun a => a.user_id = uid)) [] h with ⟨ws, hws⟩
    exact ⟨dedupWindows [] ws, by simp [windowsForAssignments, hws]⟩

/-- Witness for C4 amended: a template with no zone of its own in an
organization with no zone resolves to the default zone, and the resolver
succeeds. -/
theorem missing_timezone_falls_back_witness :
    pyOrStr (ShiftTemplate.timezone ⟨1, 1, 3, 3600, 7200, none⟩)
        (orgTimezone ⟨[⟨1, 1, 3, 3600, 7200, none⟩], [asgnEx], []⟩ 1) = none ∧
    tzValueForTemplate ⟨[⟨1, 1, 3, 3600, 7200, none⟩], [asgnEx], []⟩ cfgEx
      ⟨1, 1, 3, 3600, 7200, none⟩ = "UTC" ∧
    (∃ ws, windowsForAssignments tzdbEx ⟨[⟨1, 1, 3, 3600, 7200, none⟩], [asgnEx], []⟩
      cfgEx 7 0 = .ok ws) := by
  refine ⟨by decide, ?_, ?_⟩
  · exact (missing_timezone_falls_back.1 _ cfgEx _ (by decide))
  · exact missing_timezone_falls_back.2 tzdbEx _ cfgEx 7 0 (by decide)

/-! ## C8 — resolved window duration -/

/-- C8 counterexample: for the America/New_York shift 00:00–08:00 on
2024-03-10 (day 19792, the spring-forward date), `start < end` yet the
resolved UTC duration is 7 h (25200 s), not `end − start = 8 h`. -/
theorem dst_window_duration_counterexample :
    tmplNY.start_time < tmplNY.end_time ∧
    tmplNY.end_time - tmplNY.start_time = 28800 ∧
    (buildWindow tmplNY asgnNY "America/New_York" zoneNewYork 19792).end_utc -
      (buildWindow tmplNY asgnNY "America/New_York" zoneNewYork 19792).start_utc = 25200 ∧
    (25200 : Int) ≠ 28800 := by
  exact ⟨by decide, by decide, by decide, by decide⟩

/-- C8 amended: when the zone's offset is the same at the window's two
local endpoints (no DST transition inside the window), the resolved
duration is `end − start` for `start < end` and `(end + 24h) − start`
otherwise; across a transition it is shifted by the offset change (see
the counterexample). -/
theorem window_duration_with_constant_offset
    (template : ShiftTemplate) (assignment : ShiftAssignment) (tzv : String)
    (tz : ZoneRules) (candidate : Int)
    (hoff : tz.offAtLocal ((buildWindow template assignment tzv tz candidate).local_start) =
            tz.offAtLocal ((buildWindow template assignment tzv tz candidate).local_end)) :
    (buildWindow template assignment tzv tz candidate).end_utc -
        (buildWindow template assignment tzv tz candidate).start_utc =
      if template.start_time < template.end_time then
        template.end_time - template.start_time
      else template.end_time + secondsPerDay - template.start_time := by
  by_cases h : candidate * secondsPerDay + template.end_time ≤
      candidate * secondsPerDay + template.start_time
  · simp only [buildWindow, if_pos h] at hoff ⊢
    rw [if_neg (by omega)]
    omega
  · simp only [buildWindow, if_neg h] at hoff ⊢
    rw [if_pos (by omega)]
    omega

/-- Witness for C8 amended: the fixed-offset UTC zone, 01:00–02:00. -/
theorem window_duration_with_constant_offset_witness :
    zoneUTC.offAtLocal ((buildWindow tmplEx asgnEx "UTC" zoneUTC 0).local_start) =
      zoneUTC.offAtLocal ((buildWindow tmplEx asgnEx "UTC" zoneUTC 0).local_end) ∧
    (buildWindow tmplEx asgnEx "UTC" zoneUTC 0).end_utc -
        (buildWindow tmplEx asgnEx "UTC" zoneUTC 0).start_utc = 3600 := by
  refine ⟨by decide, ?_⟩
  have h := window_duration_with_constant_offset tmplEx asgnEx "UTC" zoneUTC 0 (by decide)
  simpa using h

/-! ## Scheduler loop invariants (C6, C7) -/

theorem randintModel_bounds (a b r : Int) (h : a ≤ b) :
    a ≤ randintModel a b r ∧ randintModel a b r ≤ b := by
  unfold randintModel
  have h1 : 0 ≤ (r - a).emod (b - a + 1) := Int.emod_nonneg _ (by omega)
  have h2 : (r - a).emod (b - a + 1) < b - a + 1 := Int.emod_lt_of_pos _ (by omega)
  omega

theorem countUserRC_append (l₁ l₂ : List RollCall) (u : Int) :
    countUserRC (l₁ ++ l₂) u = countUserRC l₁ u + countUserRC l₂ u := by
  unfold countUserRC
  rw [List.filter_append, List.length_append]

theorem countUserRC_cons (rc : RollCall) (l : List RollCall) (u : Int) :
    countUserRC (rc :: l) u =
      (if rc.user_id = u then 1 else 0) + countUserRC l u := by
  unfold countUserRC
  by_cases h : rc.user_id = u
  · simp [List.filter_cons, h]
    omega
  · simp [List.filter_cons, h]

theorem countUserRC_zero_of_not_already (l : List RollCall) (u : Int)
    (h : ¬ alreadyHasRollcall l u = true) : countUserRC l u = 0 := by
  unfold countUserRC
  rw [List.length_eq_zero, List.filter_eq_nil_iff]
  intro rc hrc
  simp only [alreadyHasRollcall, List.any_eq_true, not_exists, not_and] at h
  simpa using h rc hrc

theorem countUserRC_nil (u : Int) : countUserRC [] u = 0 := rfl

/-- Master invariant of the scheduling loop: the loop only appends a
`tail` of new roll-calls; the tail never pushes the bucket total past
`target`; a user never ends up with a second roll-call; consecutive new
triggers are `[min_gap, max_gap]` apart; the first new trigger is either
gap-offset from the anchor or — first slot of an empty hour — exactly at
it. -/
theorem scheduleLoop_spec (org_id latest minG maxG respW target : Int)
    (existing : List RollCall) (rng : Nat → Int) (hG : minG ≤ maxG)
    (au : List Int) (sch : List RollCall) (anchor : Int) (fn : Bool) (k : Nat) :
    ∃ tail,
      scheduleLoop org_id latest minG maxG respW target existing rng au sch anchor fn k
          = sch ++ tail ∧
      (tail.length : Int) ≤ max (target - ((existing.length : Int) + sch.length)) 0 ∧
      (∀ u, countUserRC (existing ++ (sch ++ tail)) u ≤
        max 1 (countUserRC (existing ++ sch) u)) ∧
      gapChain minG maxG (trigs tail) ∧
      (∀ t0, (trigs tail).head? = some t0 →
        (anchor + minG ≤ t0 ∧ t0 ≤ anchor + maxG) ∨ (fn = true ∧ t0 = anchor)) ∧
      (fn = true → existing ++ sch = [] → tail = [] ∨ (trigs tail).head? = some anchor) := by
  induction au, sch, anchor, fn, k using
      scheduleLoop.induct org_id latest minG maxG respW target existing rng with
  | case1 au sch anchor k hcond hgt =>
      refine ⟨[], ?_, ?_, ?_, trivial, ?_, fun _ _ => Or.inl rfl⟩
      · rw [scheduleLoop, dif_pos hcond, if_pos rfl, if_pos hgt, List.append_nil]
      · simp
      · intro u
        rw [List.append_nil]
        omega
      · intro t0 h
        simp [trigs] at h
  | case2 au sch anchor k hcond hgt halready ih =>
      rcases ih with ⟨tail, hA, hB, hC, hD, hE, _⟩
      refine ⟨tail, ?_, hB, hC, hD, ?_, ?_⟩
      · rw [scheduleLoop, dif_pos hcond, if_pos rfl, if_neg hgt, if_pos halready]
        exact hA
      · intro t0 h
        rcases hE t0 h with h1 | h1
        · exact Or.inl h1
        · exact absurd h1.1 (by simp)
      · intro _ hnil
        rw [hnil] at halready
        exact absurd halready (by simp [alreadyHasRollcall])
  | case3 au sch anchor k hcond hgt halready ih =>
      rcases ih with ⟨tail, hA, hB, hC, hD, hE, _⟩
      refine ⟨⟨0, org_id, chooseFrom au (rng k) hcond.2, anchor,
        anchor + respW, none, .PENDING, none⟩ :: tail, ?_, ?_, ?_, ?_, ?_, ?_⟩
      · rw [scheduleLoop, dif_pos hcond, if_pos rfl, if_neg hgt, if_neg halready]
        rw [hA, List.append_assoc]
        rfl
      · have hc := hcond.1
        simp only [List.length_append, List.length_cons, List.length_nil] at hB ⊢
        push_cast at hB ⊢
        omega
      · intro u
        have hcu := hC u
        have hz := countUserRC_zero_of_not_already (existing ++ sch)
          (chooseFrom au (rng k) hcond.2) halready
        simp only [countUserRC_append, countUserRC_cons, countUserRC_nil] at hcu hz ⊢
        by_cases hu : chooseFrom au (rng k) hcond.2 = u
        · rw [hu] at hz
          simp only [if_pos hu] at hcu ⊢
          omega
        · simp only [if_neg hu] at hcu ⊢
          omega
      · show gapChain minG maxG (trigs (⟨0, org_id, chooseFrom au (rng k) hcond.2, anchor,
          anchor + respW, none, .PENDING, none⟩ :: tail))
        simp only [trigs, List.map_cons]
        cases htr : trigs tail with
        | nil =>
            rw [show (List.map (fun rc => rc.triggered_at) tail) = trigs tail from rfl, htr]
            exact trivial
        | cons t0 rest =>
            have hE0 := hE t0 (by rw [htr]; rfl)
            rw [show (List.map (fun rc => rc.triggered_at) tail) = trigs tail from rfl, htr]
            rcases hE0 with h1 | h1
            · rw [htr] at hD
              exact ⟨by omega, by omega, hD⟩
            · exact absurd h1.1 (by simp)
      · intro t0 h
        simp only [trigs, List.map_cons, List.head?_cons, Option.some_inj] at h
        exact Or.inr ⟨rfl, h.symm⟩
      · intro _ _
        refine Or.inr ?_
        simp [trigs]
  | case4 au sch anchor fn k hcond hfn hroom =>
      refine ⟨[], ?_, ?_, ?_, trivial, ?_, ?_⟩
      · rw [scheduleLoop, dif_pos hcond, if_neg hfn, if_pos hroom, List.append_nil]
      · simp
      · intro u
        rw [List.append_nil]
        omega
      · intro t0 h
        simp [trigs] at h
      · intro _ _
        exact Or.inl rfl
  | case5 au sch anchor fn k hcond hfn hroom hgt =>
      refine ⟨[], ?_, ?_, ?_, trivial, ?_, ?_⟩
      · rw [scheduleLoop, dif_pos hcond, if_neg hfn, if_neg hroom, if_pos hgt,
          List.append_nil]
      · simp
      · intro u
        rw [List.append_nil]
        omega
      · intro t0 h
        simp [trigs] at h
      · intro _ _
        exact Or.inl rfl
  | case6 au sch anchor fn k hcond hfn hroom hgt halready ih =>
      rcases ih with ⟨tail, hA, hB, hC, hD, hE, _⟩
      refine ⟨tail, ?_, hB, hC, hD, ?_, ?_⟩
      · rw [scheduleLoop, dif_pos hcond, if_neg hfn, if_neg hroom, if_neg hgt,
          if_pos halready]
        exact hA
      · intro t0 h
        rcases hE t0 h with h1 | h1
        · exact Or.inl h1
        · exact absurd h1.1 (by simp)
      · intro hfn2 _
        exact absurd hfn2 hfn
  | case7 au sch anchor fn k hcond hfn hroom hgt halready ih =>
      rcases ih with ⟨tail, hA, hB, hC, hD, hE, _⟩
      have hmin : minG ≤ min maxG (latest - anchor) := le_min hG (by omega)
      have hrand := randintModel_bounds minG (min maxG (latest - anchor)) (rng k) hmin
      have hrle : randintModel minG (min maxG (latest - anchor)) (rng k) ≤ maxG :=
        le_trans hrand.2 (min_le_left _ _)
      refine ⟨⟨0, org_id, chooseFrom au (rng (k + 1)) hcond.2,
        anchor + randintModel minG (min maxG (latest - anchor)) (rng k),
        anchor + randintModel minG (min maxG (latest - anchor)) (rng k) + respW,
        none, .PENDING, none⟩ :: tail, ?_, ?_, ?_, ?_, ?_, ?_⟩
      · rw [scheduleLoop, dif_pos hcond, if_neg hfn, if_neg hroom, if_neg hgt,
          if_neg halready]
        rw [hA, List.append_assoc]
        rfl
      · have hc := hcond.1
        simp only [List.length_append, List.length_cons, List.length_nil] at hB ⊢
        push_cast at hB ⊢
        omega
      · intro u
        have hcu := hC u
        have hz := countUserRC_zero_of_not_already (existing ++ sch)
          (chooseFrom au (rng (k + 1)) hcond.2) halready
        simp only [countUserRC_append, countUserRC_cons, countUserRC_nil] at hcu hz ⊢
        by_cases hu : chooseFrom au (rng (k + 1)) hcond.2 = u
        · rw [hu] at hz
          simp only [if_pos hu] at hcu ⊢
          omega
        · simp only [if_neg hu] at hcu ⊢
          omega
      · show gapChain minG maxG (trigs (⟨0, org_id, chooseFrom au (rng (k + 1)) hcond.2,
          anchor + randintModel minG (min maxG (latest - anchor)) (rng k),
          anchor + randintModel minG (min maxG (latest - anchor)) (rng k) + respW,
          none, .PENDING, none⟩ :: tail))
        simp only [trigs, List.map_cons]
        cases htr : trigs tail with
        | nil =>
            rw [show (List.map (fun rc => rc.triggered_at) tail) = trigs tail from rfl, htr]
            exact trivial
        | cons t0 rest =>
            have hE0 := hE t0 (by rw [htr]; rfl)
            rw [show (List.map (fun rc => rc.triggered_at) tail) = trigs tail from rfl, htr]
            rcases hE0 with h1 | h1
            · rw [htr] at hD
              exact ⟨by omega, by omega, hD⟩
            · exact absurd h1.1 (by simp)
      · intro t0 h
        simp only [trigs, List.map_cons, List.head?_cons, Option.some_inj] at h
        refine Or.inl ⟨by omega, by omega⟩
      · intro hfn2 _
        exact absurd hfn2 hfn
  | case8 au sch anchor fn k hcond =>
      refine ⟨[], ?_, ?_, ?_, trivial, ?_, fun _ _ => Or.inl rfl⟩
      · rw [scheduleLoop, dif_neg hcond, List.append_nil]
      · simp
      · intro u
        rw [List.append_nil]
        omega
      · intro t0 h
        simp [trigs] at h

theorem gapChain_get (minG maxG : Int) (ts : List Int) (hchain : gapChain minG maxG ts) :
    ∀ (i : Nat) (h : i + 1 < ts.length),
      minG ≤ ts.get ⟨i + 1, h⟩ - ts.get ⟨i, by omega⟩ ∧
      ts.get ⟨i + 1, h⟩ - ts.get ⟨i, by omega⟩ ≤ maxG := by
  induction ts with
  | nil => intro i h; simp at h
  | cons t rest ih =>
      intro i h
      cases rest with
      | nil => simp at h
      | cons t2 rest2 =>
          obtain ⟨h1, h2, h3⟩ := hchain
          cases i with
          | zero => exact ⟨h1, h2⟩
          | succ j => exact ih h3 j (by simpa using h)

/-- Bridge from the loop invariant to `schedule_roll_calls_for_current_hour`:
cap against both the clamped target and the pre-existing total, per-user
uniqueness across the bucket, gap spacing of the newly created roll-calls,
and the promptly-fired first slot of an empty hour. -/
theorem scheduleRollCallsForCurrentHour_spec (roll_calls : List RollCall)
    (active_users : List Int) (org_id now : Int) (raw : RawTarget)
    (rng : Nat → Int) (mgm xgm : Int) (hG : mgm ≤ xgm) :
    ((((existingInHour roll_calls org_id ((now.fdiv 3600) * 3600)
        ((now.fdiv 3600) * 3600 + 3600)).length : Int) ≥ clampRollcallTarget raw) →
      scheduleRollCallsForCurrentHour roll_calls active_users org_id now raw rng mgm xgm
        = []) ∧
    (((existingInHour roll_calls org_id ((now.fdiv 3600) * 3600)
        ((now.fdiv 3600) * 3600 + 3600)).length : Int) +
      (scheduleRollCallsForCurrentHour roll_calls active_users org_id now raw rng
        mgm xgm).length ≤
      max (clampRollcallTarget raw)
        ((existingInHour roll_calls org_id ((now.fdiv 3600) * 3600)
          ((now.fdiv 3600) * 3600 + 3600)).length : Int)) ∧
    (∀ u, countUserRC
        (existingInHour roll_calls org_id ((now.fdiv 3600) * 3600)
          ((now.fdiv 3600) * 3600 + 3600) ++
        scheduleRollCallsForCurrentHour roll_calls active_users org_id now raw rng mgm xgm)
          u ≤
      max 1 (countUserRC (existingInHour roll_calls org_id ((now.fdiv 3600) * 3600)
        ((now.fdiv 3600) * 3600 + 3600)) u)) ∧
    gapChain (mgm * 60) (xgm * 60)
      (trigs (scheduleRollCallsForCurrentHour roll_calls active_users org_id now raw rng
        mgm xgm)) ∧
    (existingInHour roll_calls org_id ((now.fdiv 3600) * 3600)
        ((now.fdiv 3600) * 3600 + 3600) = [] →
      scheduleRollCallsForCurrentHour roll_calls active_users org_id now raw rng mgm xgm
          = [] ∨
        (trigs (scheduleRollCallsForCurrentHour roll_calls active_users org_id now raw rng
          mgm xgm)).head? = some now) := by
  unfold scheduleRollCallsForCurrentHour
  dsimp only
  by_cases h1 : ((existingInHour roll_calls org_id ((now.fdiv 3600) * 3600)
      ((now.fdiv 3600) * 3600 + 3600)).length : Int) ≥ clampRollcallTarget raw
  · rw [if_pos h1]
    refine ⟨fun _ => rfl, ?_, ?_, trivial, fun _ => Or.inl rfl⟩
    · simp
    · intro u
      rw [List.append_nil]
      omega
  · rw [if_neg h1]
    by_cases h2 : active_users = []
    · rw [if_pos h2]
      refine ⟨fun hge => absurd hge h1, ?_, ?_, trivial, fun _ => Or.inl rfl⟩
      · simp
      · intro u
        rw [List.append_nil]
        omega
    · rw [if_neg h2]
      have hspec := scheduleLoop_spec org_id
        ((now.fdiv 3600) * 3600 + 3600 - RESPONSE_WINDOW_MINUTES * 60) (mgm * 60) (xgm * 60)
        (RESPONSE_WINDOW_MINUTES * 60) (clampRollcallTarget raw)
        (existingInHour roll_calls org_id ((now.fdiv 3600) * 3600)
          ((now.fdiv 3600) * 3600 + 3600)) rng (by omega) active_users []
        (max (((existingInHour roll_calls org_id ((now.fdiv 3600) * 3600)
          ((now.fdiv 3600) * 3600 + 3600)).getLast?.map
            (fun rc => rc.triggered_at)).getD now) now)
        (decide ((existingInHour roll_calls org_id ((now.fdiv 3600) * 3600)
          ((now.fdiv 3600) * 3600 + 3600)).getLast?.map
            (fun rc => rc.triggered_at) = none)) 0
      rcases hspec with ⟨tail, hA, hB, hC, hD, _, hF⟩
      rw [hA]
      rw [List.nil_append]
      refine ⟨fun hge => absurd hge h1, ?_, ?_, hD, ?_⟩
      · simp only [List.length_nil] at hB
        push_cast at hB ⊢
        omega
      · intro u
        have hcu := hC u
        rw [List.nil_append] at hcu
        have heq : countUserRC (existingInHour roll_calls org_id ((now.fdiv 3600) * 3600)
            ((now.fdiv 3600) * 3600 + 3600) ++ []) u =
            countUserRC (existingInHour roll_calls org_id ((now.fdiv 3600) * 3600)
            ((now.fdiv 3600) * 3600 + 3600)) u := by rw [List.append_nil]
        rw [heq] at hcu
        exact hcu
      · intro hnil
        have hfn : (decide ((existingInHour roll_calls org_id ((now.fdiv 3600) * 3600)
            ((now.fdiv 3600) * 3600 + 3600)).getLast?.map
              (fun rc => rc.triggered_at) = none)) = true := by
          rw [hnil]
          rfl
        have hanchor : (max (((existingInHour roll_calls org_id ((now.fdiv 3600) * 3600)
            ((now.fdiv 3600) * 3600 + 3600)).getLast?.map
              (fun rc => rc.triggered_at)).getD now) now) = now := by
          rw [hnil]
          simp
        rcases hF hfn (by rw [hnil]; rfl) with htail | hhead
        · exact Or.inl htail
        · rw [hanchor] at hhead
          exact Or.inr hhead

/-! ## C6 — scheduler cap and per-user uniqueness -/

/-- C6 counterexample: two roll-calls already sit in the hour bucket and
the caller's target clamps to 1; the scheduler creates nothing, so the
bucket total (2) still exceeds the clamped target (1) — the claimed bound
`existing + new ≤ target` fails whenever the bucket already holds more
than the (possibly lowered) target. -/
theorem scheduler_cap_counterexample :
    clampRollcallTarget (.num 1) = 1 ∧
    (existingInHour [rcBucketEx 1 11 100, rcBucketEx 2 12 700] 1 0 3600).length = 2 ∧
    scheduleRollCallsForCurrentHour [rcBucketEx 1 11 100, rcBucketEx 2 12 700] [13] 1 800
      (.num 1) (fun _ => 0) MIN_GAP_MINUTES MAX_GAP_MINUTES = [] ∧
    ¬ ((2 : Int) + 0 ≤ clampRollcallTarget (.num 1)) := by
  exact ⟨by decide, by decide, rfl, by decide⟩

/-- C6 amended: the caller-supplied target is clamped into
`[1, 60 / minGap] = [1, 12]` (default 5 when absent or unparseable); the
scheduler creates nothing when the bucket already holds at least the
clamped target, and when it holds fewer the final total existing + new
never exceeds the clamped target; no user ends up with two roll-calls in
the bucket unless the pre-existing rows already duplicated that user. -/
theorem scheduler_cap_and_uniqueness :
    (MAX_ROLLCALLS_PER_HOUR = 12 ∧ clampRollcallTarget .absent = 5 ∧
      clampRollcallTarget .junk = 5 ∧
      ∀ raw, 1 ≤ clampRollcallTarget raw ∧ clampRollcallTarget raw ≤ 12) ∧
    (∀ (roll_calls : List RollCall) (active_users : List Int) (org_id now : Int)
        (raw : RawTarget) (rng : Nat → Int),
      (((existingInHour roll_calls org_id ((now.fdiv 3600) * 3600)
          ((now.fdiv 3600) * 3600 + 3600)).length : Int) ≥ clampRollcallTarget raw →
        scheduleRollCallsForCurrentHour roll_calls active_users org_id now raw rng
          MIN_GAP_MINUTES MAX_GAP_MINUTES = []) ∧
      (((existingInHour roll_calls org_id ((now.fdiv 3600) * 3600)
          ((now.fdiv 3600) * 3600 + 3600)).length : Int) < clampRollcallTarget raw →
        ((existingInHour roll_calls org_id ((now.fdiv 3600) * 3600)
          ((now.fdiv 3600) * 3600 + 3600)).length : Int) +
          (scheduleRollCallsForCurrentHour roll_calls active_users org_id now raw rng
            MIN_GAP_MINUTES MAX_GAP_MINUTES).length ≤ clampRollcallTarget raw) ∧
      (∀ u, countUserRC (existingInHour roll_calls org_id ((now.fdiv 3600) * 3600)
          ((now.fdiv 3600) * 3600 + 3600) ++
          scheduleRollCallsForCurrentHour roll_calls active_users org_id now raw rng
            MIN_GAP_MINUTES MAX_GAP_MINUTES) u ≤
        max 1 (countUserRC (existingInHour roll_calls org_id ((now.fdiv 3600) * 3600)
          ((now.fdiv 3600) * 3600 + 3600)) u))) := by
  constructor
  · refine ⟨rfl, rfl, rfl, ?_⟩
    intro raw
    cases raw with
    | absent => exact ⟨by decide, by decide⟩
    | junk => exact ⟨by decide, by decide⟩
    | num n =>
        show 1 ≤ max MIN_ROLLCALLS_PER_HOUR (min MAX_ROLLCALLS_PER_HOUR n) ∧
          max MIN_ROLLCALLS_PER_HOUR (min MAX_ROLLCALLS_PER_HOUR n) ≤ 12
        have h1 : MIN_ROLLCALLS_PER_HOUR = 1 := rfl
        have h2 : MAX_ROLLCALLS_PER_HOUR = 12 := rfl
        rw [h1, h2]
        omega
  · intro roll_calls active_users org_id now raw rng
    have hb := scheduleRollCallsForCurrentHour_spec roll_calls active_users org_id now raw
      rng MIN_GAP_MINUTES MAX_GAP_MINUTES (by decide)
    refine ⟨hb.1, ?_, hb.2.2.1⟩
    intro hlt
    have := hb.2.1
    omega

/-- Witness for C6 amended: one existing roll-call, target 2 — the run
adds exactly one and the bucket total stays within the target. -/
theorem scheduler_cap_and_uniqueness_witness :
    ((existingInHour [rcBucketEx 1 11 100] 1 ((0 : Int).fdiv 3600 * 3600)
        ((0 : Int).fdiv 3600 * 3600 + 3600)).length : Int) < clampRollcallTarget (.num 2) ∧
    ((existingInHour [rcBucketEx 1 11 100] 1 ((0 : Int).fdiv 3600 * 3600)
        ((0 : Int).fdiv 3600 * 3600 + 3600)).length : Int) +
      (scheduleRollCallsForCurrentHour [rcBucketEx 1 11 100] [13] 1 0 (.num 2)
        (fun _ => 0) MIN_GAP_MINUTES MAX_GAP_MINUTES).length ≤
      clampRollcallTarget (.num 2) := by
  have h := (scheduler_cap_and_uniqueness.2 [rcBucketEx 1 11 100] [13] 1 0 (.num 2)
    (fun _ => 0)).2.1
  exact ⟨by decide, h (by decide)⟩

/-! ## C7 — scheduler spacing -/

/-- C7 counterexample: a single run with target 3 from the top of the
hour can place roll-calls at 0 s, 960 s and 1920 s; the first and third
are 1920 s apart — more than `maxGapMinutes = 16` minutes — so the
claimed bound on *any* two roll-calls of the bucket fails (it holds only
for consecutive ones). -/
theorem scheduler_spacing_counterexample :
    scheduleRollCallsForCurrentHour [] [11, 12, 13] 1 0 (.num 3) (fun _ => 960)
        MIN_GAP_MINUTES MAX_GAP_MINUTES =
      [⟨0, 1, 11, 0, 300, none, .PENDING, none⟩,
       ⟨0, 1, 12, 960, 1260, none, .PENDING, none⟩,
       ⟨0, 1, 13, 1920, 2220, none, .PENDING, none⟩] ∧
    MAX_GAP_MINUTES * 60 = 960 ∧
    ¬ ((1920 : Int) - 0 ≤ 960) := by
  refine ⟨?_, by decide, by decide⟩
  simp +decide [scheduleRollCallsForCurrentHour, existingInHour, sortByTrigger,
    scheduleLoop, clampRollcallTarget, chooseFrom, randintModel, alreadyHasRollcall,
    MAX_ROLLCALLS_PER_HOUR, MIN_ROLLCALLS_PER_HOUR, MIN_GAP_MINUTES, MAX_GAP_MINUTES,
    RESPONSE_WINDOW_MINUTES]

/-- C7 amended: any two *consecutive* roll-calls created by one
invocation are between `minGap` and `maxGap` apart (hence any two
distinct created ones are at least `minGap` apart); when the hour bucket
was empty, the first created roll-call fires exactly at the anchor `now`
with zero offset.  The upper bound does not extend to non-adjacent pairs
(see the counterexample). -/
theorem scheduler_spacing_consecutive (roll_calls : List RollCall)
    (active_users : List Int) (org_id now : Int) (raw : RawTarget) (rng : Nat → Int)
    (mgm xgm : Int) (hG : mgm ≤ xgm) :
    (∀ (i : Nat) (h : i + 1 < (trigs (scheduleRollCallsForCurrentHour roll_calls
        active_users org_id now raw rng mgm xgm)).length),
      mgm * 60 ≤ (trigs (scheduleRollCallsForCurrentHour roll_calls active_users org_id
          now raw rng mgm xgm)).get ⟨i + 1, h⟩ -
        (trigs (scheduleRollCallsForCurrentHour roll_calls active_users org_id now raw rng
          mgm xgm)).get ⟨i, by omega⟩ ∧
      (trigs (scheduleRollCallsForCurrentHour roll_calls active_users org_id now raw rng
          mgm xgm)).get ⟨i + 1, h⟩ -
        (trigs (scheduleRollCallsForCurrentHour roll_calls active_users org_id now raw rng
          mgm xgm)).get ⟨i, by omega⟩ ≤ xgm * 60) ∧
    (existingInHour roll_calls org_id ((now.fdiv 3600) * 3600)
        ((now.fdiv 3600) * 3600 + 3600) = [] →
      scheduleRollCallsForCurrentHour roll_calls active_users org_id now raw rng mgm xgm
          = [] ∨
        (trigs (scheduleRollCallsForCurrentHour roll_calls active_users org_id now raw rng
          mgm xgm)).head? = some now) := by
  have hb := scheduleRollCallsForCurrentHour_spec roll_calls active_users org_id now raw
    rng mgm xgm hG
  exact ⟨gapChain_get (mgm * 60) (xgm * 60) _ hb.2.2.2.1, hb.2.2.2.2⟩

/-- Witness for C7 amended, on the concrete three-slot run: the first two
created roll-calls are 960 s apart, inside `[5 min, 16 min]`. -/
theorem scheduler_spacing_consecutive_witness :
    MIN_GAP_MINUTES ≤ MAX_GAP_MINUTES ∧
    MIN_GAP_MINUTES * 60 ≤ (960 : Int) - 0 ∧ (960 : Int) - 0 ≤ MAX_GAP_MINUTES * 60 := by
  have hb := scheduler_spacing_consecutive [] [11, 12, 13] 1 0 (.num 3) (fun _ => 960)
    MIN_GAP_MINUTES MAX_GAP_MINUTES (by decide)
  have hout : scheduleRollCallsForCurrentHour [] [11, 12, 13] 1 0 (.num 3) (fun _ => 960)
      MIN_GAP_MINUTES MAX_GAP_MINUTES =
      [⟨0, 1, 11, 0, 300, none, .PENDING, none⟩,
       ⟨0, 1, 12, 960, 1260, none, .PENDING, none⟩,
       ⟨0, 1, 13, 1920, 2220, none, .PENDING, none⟩] := by
    simp +decide [scheduleRollCallsForCurrentHour, existingInHour, sortByTrigger,
      scheduleLoop, clampRollcallTarget, chooseFrom, randintModel, alreadyHasRollcall,
      MAX_ROLLCALLS_PER_HOUR, MIN_ROLLCALLS_PER_HOUR, MIN_GAP_MINUTES, MAX_GAP_MINUTES,
      RESPONSE_WINDOW_MINUTES]
  rw [hout] at hb
  have h01 := hb.1 0 (by decide)
  refine ⟨by decide, ?_, ?_⟩
  · simpa [trigs] using h01.1
  · simpa [trigs] using h01.2

/-! ## C5 — summarizer idempotence -/

theorem isDeductionRow_true_iff (uid d : Int) (k : DeductionType) (x : Deduction) :
    isDeductionRow uid d k x = true ↔ (x.user_id = uid ∧ x.date = d ∧ x.type = k) := by
  simp [isDeductionRow, and_assoc]

theorem updOverbreak_isRow (uid d m : Int) (ids : List Int) (k : DeductionType)
    (y : Deduction) :
    isDeductionRow uid d k (updOverbreak uid d m ids y) = isDeductionRow uid d k y := by
  unfold updOverbreak
  by_cases h : isDeductionRow uid d .OVERBREAK y = true
  · rw [if_pos h]
    rfl
  · rw [if_neg h]

theorem rollcall_rows_of_unrelated (ds₁ ds₂ : List Deduction) (uid d : Int)
    (h : ds₁.filter (fun x => !(isDeductionRow uid d .OVERBREAK x)) =
         ds₂.filter (fun x => !(isDeductionRow uid d .OVERBREAK x))) :
    ds₁.filter (isDeductionRow uid d .ROLLCALL) =
      ds₂.filter (isDeductionRow uid d .ROLLCALL) := by
  have key : ∀ l : List Deduction, l.filter (isDeductionRow uid d .ROLLCALL) =
      (l.filter (fun x => !(isDeductionRow uid d .OVERBREAK x))).filter
        (isDeductionRow uid d .ROLLCALL) := by
    intro l
    rw [List.filter_filter]
    refine List.filter_congr ?_
    intro x _
    by_cases hrc : isDeductionRow uid d .ROLLCALL x = true
    · have hob : isDeductionRow uid d .OVERBREAK x = false := by
        rcases (isDeductionRow_true_iff uid d .ROLLCALL x).mp hrc with ⟨h1, h2, h3⟩
        simp [isDeductionRow, h3]
      rw [hrc, hob]
      rfl
    · rw [Bool.not_eq_true] at hrc
      rw [hrc]
      simp
  rw [key ds₁, key ds₂, h]

/-- Reconciliation post-state: the overbreak sync succeeds on a table
with at most one OVERBREAK row for the day, leaves every unrelated row
untouched, and leaves no OVERBREAK row when the minute count is ≤ 0 and
exactly one — carrying the current minutes and description — when it is
positive. -/
theorem syncOverbreak_post (ds : List Deduction) (uid : Int) (org : Option Int)
    (d m : Int) (ids : List Int)
    (huniq : (ds.filter (isDeductionRow uid d .OVERBREAK)).length ≤ 1) :
    ∃ ded₁, syncOverbreakDeduction ds uid org d m ids = some ded₁ ∧
      ded₁.filter (fun x => !(isDeductionRow uid d .OVERBREAK x)) =
        ds.filter (fun x => !(isDeductionRow uid d .OVERBREAK x)) ∧
      (m ≤ 0 → ded₁.filter (isDeductionRow uid d .OVERBREAK) = []) ∧
      (0 < m → ∃ row, ded₁.filter (isDeductionRow uid d .OVERBREAK) = [row] ∧
        row.minutes = m ∧ row.description = syncDescription ids) := by
  rcases hobs : ds.filter (isDeductionRow uid d .OVERBREAK) with _ | ⟨x, rest⟩
  · by_cases hm : m ≤ 0
    · refine ⟨ds, ?_, rfl, fun _ => hobs, fun hm0 => absurd hm (by omega)⟩
      simp only [syncOverbreakDeduction, hobs, oneOrNone, if_pos hm]
    · refine ⟨ds ++ [⟨org, uid, d, .OVERBREAK, m, syncDescription ids, none⟩], ?_, ?_,
        fun hm0 => absurd hm0 hm, ?_⟩
      · simp only [syncOverbreakDeduction, hobs, oneOrNone, if_neg hm]
      · rw [List.filter_append]
        have hnew : List.filter (fun x => !(isDeductionRow uid d .OVERBREAK x))
            [⟨org, uid, d, .OVERBREAK, m, syncDescription ids, none⟩] = [] := by
          simp [isDeductionRow]
        rw [hnew, List.append_nil]
      · intro _
        refine ⟨⟨org, uid, d, .OVERBREAK, m, syncDescription ids, none⟩, ?_, rfl, rfl⟩
        rw [List.filter_append, hobs]
        simp [isDeductionRow]
  · have hrest : rest = [] := by
      have h1 := huniq
      rw [hobs] at h1
      simp only [List.length_cons] at h1
      exact List.length_eq_zero.mp (by omega)
    subst hrest
    have hx : isDeductionRow uid d .OVERBREAK x = true := by
      have hmem : x ∈ ds.filter (isDeductionRow uid d .OVERBREAK) := by
        rw [hobs]
        exact List.mem_cons_self x []
      exact (List.mem_filter.mp hmem).2
    by_cases hm : m ≤ 0
    · refine ⟨ds.filter (fun x => !(isDeductionRow uid d .OVERBREAK x)), ?_, ?_,
        fun _ => ?_, fun hm0 => absurd hm (by omega)⟩
      · simp only [syncOverbreakDeduction, hobs, oneOrNone, if_pos hm]
      · rw [List.filter_filter]
        exact List.filter_congr (fun y _ => Bool.and_self _)
      · rw [List.filter_filter]
        rw [show List.filter (fun a => isDeductionRow uid d .OVERBREAK a &&
            !(isDeductionRow uid d .OVERBREAK a)) ds = List.filter (fun _ => false) ds from
          List.filter_congr (fun y _ => Bool.and_not_self _)]
        exact List.filter_false ds
    · refine ⟨ds.map (updOverbreak uid d m ids), ?_, ?_, fun hm0 => absurd hm0 hm, ?_⟩
      · simp only [syncOverbreakDeduction, hobs, oneOrNone, if_neg hm]
      · rw [List.filter_map]
        rw [show List.filter ((fun x => !(isDeductionRow uid d .OVERBREAK x)) ∘
            updOverbreak uid d m ids) ds =
            List.filter (fun x => !(isDeductionRow uid d .OVERBREAK x)) ds from
          List.filter_congr (fun y _ => by
            simp only [Function.comp_apply, updOverbreak_isRow])]
        refine List.map_congr_left ?_ |>.trans (List.map_id _)
        intro y hy
        have hny := (List.mem_filter.mp hy).2
        unfold updOverbreak
        rw [if_neg (by simpa using hny)]
        rfl
      · intro _
        refine ⟨updOverbreak uid d m ids x, ?_, ?_, ?_⟩
        · rw [List.filter_map]
          rw [show List.filter (isDeductionRow uid d .OVERBREAK ∘ updOverbreak uid d m ids)
              ds = List.filter (isDeductionRow uid d .OVERBREAK) ds from
            List.filter_congr (fun y _ => by
              simp only [Function.comp_apply, updOverbreak_isRow])]
          rw [hobs]
          rfl
        · unfold updOverbreak
          rw [if_pos hx]
        · unfold updOverbreak
          rw [if_pos hx]

/-- Re-running the reconciliation on a post-state table is a no-op. -/
theorem syncOverbreak_stable (ded₁ : List Deduction) (uid : Int) (org : Option Int)
    (d m : Int) (ids : List Int)
    (hcanon : (m ≤ 0 ∧ ded₁.filter (isDeductionRow uid d .OVERBREAK) = []) ∨
      (0 < m ∧ ∃ row, ded₁.filter (isDeductionRow uid d .OVERBREAK) = [row] ∧
        row.minutes = m ∧ row.description = syncDescription ids)) :
    syncOverbreakDeduction ded₁ uid org d m ids = some ded₁ := by
  rcases hcanon with ⟨hm, hnil⟩ | ⟨hm, row, hrow, hmin, hdesc⟩
  · simp only [syncOverbreakDeduction, hnil, oneOrNone, if_pos hm]
  · simp only [syncOverbreakDeduction, hrow, oneOrNone, if_neg (by omega : ¬ m ≤ 0)]
    refine congrArg some ?_
    have hall : ∀ y ∈ ded₁, updOverbreak uid d m ids y = y := by
      intro y hy
      by_cases h : isDeductionRow uid d .OVERBREAK y = true
      · have hy2 : y ∈ ded₁.filter (isDeductionRow uid d .OVERBREAK) :=
          List.mem_filter.mpr ⟨hy, h⟩
        rw [hrow] at hy2
        have hyrow : y = row := by simpa using hy2
        subst hyrow
        unfold updOverbreak
        rw [if_pos h, ← hmin, ← hdesc]
      · unfold updOverbreak
        rw [if_neg h]
    exact (List.map_congr_left hall).trans (List.map_id _)

theorem buildSummary_fst_congr (sessions : List WorkSession) (ds₁ ds₂ : List Deduction)
    (windows : List ShiftWindow) (uid d now : Int) (b₁ b₂ : Bool)
    (h : ds₁.filter (isDeductionRow uid d .ROLLCALL) =
         ds₂.filter (isDeductionRow uid d .ROLLCALL)) :
    (buildSummaryForDay sessions ds₁ windows uid d now b₁).1 =
      (buildSummaryForDay sessions ds₂ windows uid d now b₂).1 := by
  unfold buildSummaryForDay
  dsimp only
  rw [h]

theorem buildSummary_snd_sync (sessions : List WorkSession) (ds : List Deduction)
    (windows : List ShiftWindow) (uid d now : Int) :
    (buildSummaryForDay sessions ds windows uid d now true).2 =
      syncOverbreakDeduction ds uid ((sessionsOfDay sessions uid d).head?.map
        (fun s => s.org_id)) d (overbreakMinutesOf sessions windows uid d now)
        ((sessionsOfDay sessions uid d).map (fun s => s.id)) := rfl

theorem buildSummary_overbreak_eq (sessions : List WorkSession) (ds : List Deduction)
    (windows : List ShiftWindow) (uid d now : Int) (b : Bool) :
    (buildSummaryForDay sessions ds windows uid d now b).1.overbreak_minutes =
      overbreakMinutesOf sessions windows uid d now := rfl

/-- C5: with at most one OVERBREAK row for the (user, date) to start
with, running the daily summarizer twice with unchanged inputs returns
the same summary both times and the deduction table reached after the
first run is a fixed point: at most one OVERBREAK row for the day, no
duplicates, every unrelated deduction untouched, and no OVERBREAK row at
all when the computed overbreak is ≤ 0. -/
theorem summarize_day_idempotent (sessions : List WorkSession)
    (deductions : List Deduction) (windows : List ShiftWindow) (uid d now : Int)
    (huniq : (deductions.filter (isDeductionRow uid d .OVERBREAK)).length ≤ 1) :
    ∃ s₁ ded₁,
      buildSummaryForDay sessions deductions windows uid d now true = (s₁, some ded₁) ∧
      buildSummaryForDay sessions ded₁ windows uid d now true = (s₁, some ded₁) ∧
      (ded₁.filter (isDeductionRow uid d .OVERBREAK)).length ≤ 1 ∧
      ded₁.filter (fun x => !(isDeductionRow uid d .OVERBREAK x)) =
        deductions.filter (fun x => !(isDeductionRow uid d .OVERBREAK x)) ∧
      (s₁.overbreak_minutes ≤ 0 →
        ded₁.filter (isDeductionRow uid d .OVERBREAK) = []) := by
  obtain ⟨ded₁, hsync, hunrel, hzero, hpos⟩ := syncOverbreak_post deductions uid
    ((sessionsOfDay sessions uid d).head?.map (fun s => s.org_id)) d
    (overbreakMinutesOf sessions windows uid d now)
    ((sessionsOfDay sessions uid d).map (fun s => s.id)) huniq
  have hrc := rollcall_rows_of_unrelated ded₁ deductions uid d hunrel
  refine ⟨(buildSummaryForDay sessions deductions windows uid d now true).1, ded₁,
    ?_, ?_, ?_, hunrel, ?_⟩
  · have h2 := buildSummary_snd_sync sessions deductions windows uid d now
    rw [hsync] at h2
    exact Prod.ext rfl h2
  · have hfst := buildSummary_fst_congr sessions ded₁ deductions windows uid d now
      true true hrc
    have h2 := buildSummary_snd_sync sessions ded₁ windows uid d now
    have hstable : syncOverbreakDeduction ded₁ uid
        ((sessionsOfDay sessions uid d).head?.map (fun s => s.org_id)) d
        (overbreakMinutesOf sessions windows uid d now)
        ((sessionsOfDay sessions uid d).map (fun s => s.id)) = some ded₁ := by
      apply syncOverbreak_stable
      by_cases hm : overbreakMinutesOf sessions windows uid d now ≤ 0
      · exact Or.inl ⟨hm, hzero hm⟩
      · exact Or.inr ⟨by omega, hpos (by omega)⟩
    rw [hstable] at h2
    exact Prod.ext hfst h2
  · by_cases hm : overbreakMinutesOf sessions windows uid d now ≤ 0
    · rw [hzero hm]
      simp
    · rcases hpos (by omega) with ⟨row, hr, _, _⟩
      rw [hr]
      simp
  · intro hob
    rw [buildSummary_overbreak_eq] at hob
    exact hzero hob

/-- Witness for C5: the concrete 450/70/40-minute day with one ROLLCALL
deduction (no OVERBREAK row yet). -/
theorem summarize_day_idempotent_witness :
    (([rollDedEx].filter (isDeductionRow 7 0 .OVERBREAK)).length ≤ 1) ∧
    (∃ s₁ ded₁,
      buildSummaryForDay sessionsEx [rollDedEx] [windowAllDay] 7 0 86400 true
          = (s₁, some ded₁) ∧
      buildSummaryForDay sessionsEx ded₁ [windowAllDay] 7 0 86400 true = (s₁, some ded₁) ∧
      (ded₁.filter (isDeductionRow 7 0 .OVERBREAK)).length ≤ 1 ∧
      ded₁.filter (fun x => !(isDeductionRow 7 0 .OVERBREAK x)) =
        [rollDedEx].filter (fun x => !(isDeductionRow 7 0 .OVERBREAK x)) ∧
      (s₁.overbreak_minutes ≤ 0 →
        ded₁.filter (isDeductionRow 7 0 .OVERBREAK) = [])) :=
  ⟨by decide,
   summarize_day_idempotent sessionsEx [rollDedEx] [windowAllDay] 7 0 86400 (by decide)⟩

end TimeLogger
